import Mathlib

/-!
Verification of the lateral QP formulation in
modules/planning/math/finite_element_qp/osqp_lateral_qp_optimizer.cc.

The optimizer builds, for N stations with uniform spacing delta_s:
a 3N x 3N diagonal kernel matrix, an affine constraint matrix of
kNumConstraint = 3N + 3(N-1) + 3 rows together with lower/upper bound
vectors, a linear term q of length 3N, then delegates the solve to an
external QP solver and extracts three length-N output sequences from the
primal solution, zeroing the final first- and second-derivative entries.

The embedding uses exact rationals for the double-precision arithmetic of
the source: every quantity the claims speak about is built from the inputs
by field operations only, so the rational model reproduces the source
expressions symbolically.  The external solver is modelled as an arbitrary
status value together with an arbitrary primal vector, since the source
never inspects the status and reads only the primal solution array.
-/

namespace Apollo

/-- The five gflags weights and limits read by the optimizer
(FLAGS_weight_lateral_offset, FLAGS_weight_lateral_obstacle_distance,
FLAGS_weight_lateral_derivative, FLAGS_weight_lateral_second_order_derivative,
FLAGS_lateral_third_order_derivative_max). -/
structure Config where
  weight_lateral_offset : ℚ
  weight_lateral_obstacle_distance : ℚ
  weight_lateral_derivative : ℚ
  weight_lateral_second_order_derivative : ℚ
  lateral_third_order_derivative_max : ℚ
deriving DecidableEq

/-- One row of the affine constraint system: its coefficient over each
column index, and the scalar lower/upper bounds written at the same
constraint index. -/
structure Row where
  coeff : ℕ → ℚ
  lb : ℚ
  ub : ℚ

/-- Default row used with List.getD; never produced by the construction. -/
def rowDefault : Row := { coeff := fun _ => 0, lb := 0, ub := 0 }

/-- kNumParam = 3 * d_bounds.size(). -/
def kNumParam (N : ℕ) : ℤ := 3 * (N : ℤ)

/-- kNumConstraint = kNumParam + 3 * (num_var - 1) + 3, computed in C int
arithmetic, hence over ℤ (for num_var = 0 the value is 0). -/
def kNumConstraint (N : ℕ) : ℤ := kNumParam N + 3 * ((N : ℤ) - 1) + 3

/-- Jerk-bound row i (source lines 51-62): coefficients -1 and +1 at the
second-derivative columns 2N+i and 2N+i+1, bounds
-FLAGS_lateral_third_order_derivative_max * delta_s and
FLAGS_lateral_third_order_derivative_max * delta_s. -/
def jerkRow (cfg : Config) (N : ℕ) (ds : ℚ) (i : ℕ) : Row :=
  { coeff := fun c =>
      if c = 2 * N + i then -1
      else if c = 2 * N + i + 1 then 1
      else 0,
    lb := -cfg.lateral_third_order_derivative_max * ds,
    ub := cfg.lateral_third_order_derivative_max * ds }

/-- Velocity-continuity row i (source lines 64-75): encodes
dp(i+1) - dp(i) - 0.5 * ds * (dpp(i) + dpp(i+1)) with equality bounds 0,
where dp and dpp denote the first- and second-derivative variables. -/
def velRow (N : ℕ) (ds : ℚ) (i : ℕ) : Row :=
  { coeff := fun c =>
      if c = N + i then -1
      else if c = N + i + 1 then 1
      else if c = 2 * N + i then -(1/2) * ds
      else if c = 2 * N + i + 1 then -(1/2) * ds
      else 0,
    lb := 0,
    ub := 0 }

/-- Position-continuity row i (source lines 77-92): encodes
d(i+1) - d(i) - dp(i) * ds - 1/3 * dpp(i) * ds^2 - 1/6 * dpp(i+1) * ds^2
with equality bounds 0, where dp and dpp denote the first- and
second-derivative variables. -/
def posRow (N : ℕ) (ds : ℚ) (i : ℕ) : Row :=
  { coeff := fun c =>
      if c = i then -1
      else if c = i + 1 then 1
      else if c = N + i then -ds
      else if c = 2 * N + i then -ds * ds / 3
      else if c = 2 * N + i + 1 then -ds * ds / 6
      else 0,
    lb := 0,
    ub := 0 }

/-- Initial-state pin for the offset (source lines 94-97). -/
def pinRowOffset (dState : Fin 3 → ℚ) : Row :=
  { coeff := fun c => if c = 0 then 1 else 0,
    lb := dState 0, ub := dState 0 }

/-- Initial-state pin for the first derivative (source lines 99-102). -/
def pinRowPrime (N : ℕ) (dState : Fin 3 → ℚ) : Row :=
  { coeff := fun c => if c = N then 1 else 0,
    lb := dState 1, ub := dState 1 }

/-- Initial-state pin for the second derivative (source lines 104-107). -/
def pinRowPprime (N : ℕ) (dState : Fin 3 → ℚ) : Row :=
  { coeff := fun c => if c = 2 * N then 1 else 0,
    lb := dState 2, ub := dState 2 }

/-- Box-bound row i (source lines 109-120): coefficient 1 at column i;
bounds d_bounds[i] for i < num_var, else (-LARGE_VALUE, LARGE_VALUE)
with LARGE_VALUE = 2.0. -/
def boxRow (dBounds : List (ℚ × ℚ)) (i : ℕ) : Row :=
  { coeff := fun c => if c = i then 1 else 0,
    lb := if i < dBounds.length then (dBounds.getD i (0, 0)).1 else -2,
    ub := if i < dBounds.length then (dBounds.getD i (0, 0)).2 else 2 }

/-- The affine constraint rows in construction order (source lines 48-120):
each loop iteration or pin statement writes one row at the running
constraint_index and increments it, so the construction is the
concatenation of the five groups.  The continuity loops run for
i + 1 < num_var, i.e. num_var - 1 iterations; the box loop runs kNumParam
times. -/
def constraintRows (cfg : Config) (dState : Fin 3 → ℚ) (ds : ℚ)
    (dBounds : List (ℚ × ℚ)) : List Row :=
  ((List.range (dBounds.length - 1)).map (jerkRow cfg dBounds.length ds)) ++
  ((List.range (dBounds.length - 1)).map (velRow dBounds.length ds)) ++
  ((List.range (dBounds.length - 1)).map (posRow dBounds.length ds)) ++
  [pinRowOffset dState, pinRowPrime dBounds.length dState,
    pinRowPprime dBounds.length dState] ++
  ((List.range (3 * dBounds.length)).map (boxRow dBounds))

/-- Diagonal value written by the kernel loop body (source lines 200-209). -/
def kernelDiagVal (cfg : Config) (N i : ℕ) : ℚ :=
  if i < N then
    2 * cfg.weight_lateral_offset + 2 * cfg.weight_lateral_obstacle_distance
  else if i < 2 * N then
    2 * cfg.weight_lateral_derivative
  else
    2 * cfg.weight_lateral_second_order_derivative

/-- Write the value v at entry (r, c) of a dense matrix. -/
def setEntry (M : ℕ → ℕ → ℚ) (r c : ℕ) (v : ℚ) : ℕ → ℕ → ℚ :=
  fun x y => if x = r ∧ y = c then v else M x y

/-- CalculateKernel (source lines 191-212): start from the 3N x 3N zero
matrix and set each diagonal entry (i, i) for i < kNumParam to the
weight selected by the loop body. -/
def CalculateKernel (cfg : Config) (N : ℕ) : ℕ → ℕ → ℚ :=
  (List.range (3 * N)).foldl
    (fun M i => setEntry M i i (kernelDiagVal cfg N i))
    (fun _ _ => 0)

/-- The linear offset term q (source lines 131-139): length kNumParam;
q[i] = -2 * FLAGS_weight_lateral_obstacle_distance *
(d_bounds[i].first + d_bounds[i].second) for i < num_var, else 0. -/
def qVector (cfg : Config) (dBounds : List (ℚ × ℚ)) : List ℚ :=
  (List.range (3 * dBounds.length)).map (fun i =>
    if i < dBounds.length then
      -2 * cfg.weight_lateral_obstacle_distance *
        ((dBounds.getD i (0, 0)).1 + (dBounds.getD i (0, 0)).2)
    else 0)

/-- The accumulating output members opt_d_, opt_d_prime_, opt_d_pprime_;
they persist across calls on one optimizer instance. -/
structure OptState where
  opt_d : List ℚ
  opt_d_prime : List ℚ
  opt_d_pprime : List ℚ
deriving DecidableEq

/-- The empty output state of a freshly constructed optimizer instance. -/
def freshState : OptState := { opt_d := [], opt_d_prime := [], opt_d_pprime := [] }

/-- Result extraction (source lines 173-179): append x[i], x[i+num_var],
x[i+2*num_var] for i < num_var to the three members, then overwrite
opt_d_prime_[num_var - 1] and opt_d_pprime_[num_var - 1] with 0.  The
override indexes the member vectors at absolute position num_var - 1. -/
def extractResults (st : OptState) (N : ℕ) (x : ℕ → ℚ) : OptState :=
  { opt_d := st.opt_d ++ (List.range N).map (fun i => x i),
    opt_d_prime :=
      ((st.opt_d_prime ++ (List.range N).map (fun i => x (i + N))).set (N - 1) 0),
    opt_d_pprime :=
      ((st.opt_d_pprime ++ (List.range N).map (fun i => x (i + 2 * N))).set (N - 1) 0) }

/-- The optimize entry point (source lines 31-189).  The CHECK_EQ at line
122 compares the running row counter against kNumConstraint and aborts on
mismatch, modelled by returning none.  The external solver is modelled by
an arbitrary status (the return of osqp_solve, discarded by the source)
and an arbitrary primal vector x (work->solution->x); on success the
source returns true unconditionally. -/
def optimize (cfg : Config) (dState : Fin 3 → ℚ) (ds : ℚ)
    (dBounds : List (ℚ × ℚ)) (solverStatus : ℤ) (x : ℕ → ℚ)
    (st : OptState) : Option (Bool × OptState) :=
  let rows := constraintRows cfg dState ds dBounds
  if ((rows.length : ℤ) = kNumConstraint dBounds.length) then
    some (true, extractResults st dBounds.length x)
  else
    none

/-! ## Helper lemmas -/

theorem getD_range_map {α : Type} (f : ℕ → α) (m i : ℕ) (d : α) (h : i < m) :
    ((List.range m).map f).getD i d = f i := by
  have hl : i < ((List.range m).map f).length := by simpa using h
  rw [List.getD_eq_getElem _ _ hl, List.getElem_map, List.getElem_range]

theorem constraintRows_length (cfg : Config) (dState : Fin 3 → ℚ) (ds : ℚ)
    (dBounds : List (ℚ × ℚ)) :
    (constraintRows cfg dState ds dBounds).length =
      3 * (dBounds.length - 1) + 3 + 3 * dBounds.length := by
  simp [constraintRows]
  omega

theorem constraintRows_length_int (cfg : Config) (dState : Fin 3 → ℚ) (ds : ℚ)
    (dBounds : List (ℚ × ℚ)) (h : 1 ≤ dBounds.length) :
    ((constraintRows cfg dState ds dBounds).length : ℤ) =
      kNumConstraint dBounds.length := by
  rw [constraintRows_length]
  unfold kNumConstraint kNumParam
  omega

theorem getD_append_exact {α : Type} (l l' : List α) (d : α) (n m : ℕ)
    (h : n = l.length + m) : (l ++ l').getD n d = l'.getD m d := by
  subst h
  rw [List.getD_append_right _ _ _ _ (Nat.le_add_right _ _),
    Nat.add_sub_cancel_left]

theorem constraintRows_getD_jerk (cfg : Config) (dState : Fin 3 → ℚ) (ds : ℚ)
    (dBounds : List (ℚ × ℚ)) (i : ℕ) (hi : i < dBounds.length - 1) :
    (constraintRows cfg dState ds dBounds).getD i rowDefault =
      jerkRow cfg dBounds.length ds i := by
  unfold constraintRows
  rw [List.getD_append _ _ _ _ (by
    simp only [List.length_append, List.length_map, List.length_range,
      List.length_cons, List.length_nil]; omega)]
  rw [List.getD_append _ _ _ _ (by
    simp only [List.length_append, List.length_map, List.length_range]; omega)]
  rw [List.getD_append _ _ _ _ (by
    simp only [List.length_append, List.length_map, List.length_range]; omega)]
  rw [List.getD_append _ _ _ _ (by
    simp only [List.length_map, List.length_range]; omega)]
  exact getD_range_map _ _ _ _ hi

theorem constraintRows_getD_vel (cfg : Config) (dState : Fin 3 → ℚ) (ds : ℚ)
    (dBounds : List (ℚ × ℚ)) (i : ℕ) (hi : i < dBounds.length - 1) :
    (constraintRows cfg dState ds dBounds).getD
        (dBounds.length - 1 + i) rowDefault =
      velRow dBounds.length ds i := by
  unfold constraintRows
  rw [List.getD_append _ _ _ _ (by
    simp only [List.length_append, List.length_map, List.length_range,
      List.length_cons, List.length_nil]; omega)]
  rw [List.getD_append _ _ _ _ (by
    simp only [List.length_append, List.length_map, List.length_range]; omega)]
  rw [List.getD_append _ _ _ _ (by
    simp only [List.length_append, List.length_map, List.length_range]; omega)]
  rw [getD_append_exact _ _ _ _ i (by
    simp only [List.length_map, List.length_range])]
  exact getD_range_map _ _ _ _ hi

theorem constraintRows_getD_pos (cfg : Config) (dState : Fin 3 → ℚ) (ds : ℚ)
    (dBounds : List (ℚ × ℚ)) (i : ℕ) (hi : i < dBounds.length - 1) :
    (constraintRows cfg dState ds dBounds).getD
        (2 * (dBounds.length - 1) + i) rowDefault =
      posRow dBounds.length ds i := by
  unfold constraintRows
  rw [List.getD_append _ _ _ _ (by
    simp only [List.length_append, List.length_map, List.length_range,
      List.length_cons, List.length_nil]; omega)]
  rw [List.getD_append _ _ _ _ (by
    simp only [List.length_append, List.length_map, List.length_range]; omega)]
  rw [getD_append_exact _ _ _ _ i (by
    simp only [List.length_append, List.length_map, List.length_range]; omega)]
  exact getD_range_map _ _ _ _ hi

theorem constraintRows_getD_box (cfg : Config) (dState : Fin 3 → ℚ) (ds : ℚ)
    (dBounds : List (ℚ × ℚ)) (i : ℕ) (hi : i < 3 * dBounds.length) :
    (constraintRows cfg dState ds dBounds).getD
        (3 * (dBounds.length - 1) + 3 + i) rowDefault =
      boxRow dBounds i := by
  unfold constraintRows
  rw [getD_append_exact _ _ _ _ i (by
    simp only [List.length_append, List.length_map, List.length_range,
      List.length_cons, List.length_nil]; omega)]
  exact getD_range_map _ _ _ _ hi

/-! ## Claims -/

/-- C1: for every station-bound sequence of length N ≥ 1 and every delta_s,
the constraint construction produces exactly
kNumConstraint = 3N + 3(N-1) + 3 rows over kNumParam = 3N columns, so the
running row counter equals kNumConstraint at the end of construction and
the fatal CHECK_EQ row-count assertion never fires. -/
theorem c1_row_count (cfg : Config) (dState : Fin 3 → ℚ) (ds : ℚ)
    (dBounds : List (ℚ × ℚ)) (solverStatus : ℤ) (x : ℕ → ℚ) (st : OptState)
    (h : 1 ≤ dBounds.length) :
    kNumParam dBounds.length = 3 * (dBounds.length : ℤ) ∧
    kNumConstraint dBounds.length =
      3 * (dBounds.length : ℤ) + 3 * ((dBounds.length : ℤ) - 1) + 3 ∧
    ((constraintRows cfg dState ds dBounds).length : ℤ) =
      kNumConstraint dBounds.length ∧
    optimize cfg dState ds dBounds solverStatus x st ≠ none := by
  refine ⟨rfl, by unfold kNumConstraint kNumParam; ring, ?_, ?_⟩
  · exact constraintRows_length_int cfg dState ds dBounds h
  · unfold optimize
    rw [if_pos (constraintRows_length_int cfg dState ds dBounds h)]
    simp

/-- Concrete configuration used by the witness theorems. -/
def sampleConfig : Config := ⟨1, 1, 1, 1, 1⟩

theorem c1_row_count_witness :
    1 ≤ ([((0 : ℚ), (1 : ℚ))] : List (ℚ × ℚ)).length ∧
    ((constraintRows ⟨1, 1, 1, 1, 1⟩ (fun _ => 0) 1 [((0 : ℚ), (1 : ℚ))]).length : ℤ) =
      kNumConstraint ([((0 : ℚ), (1 : ℚ))] : List (ℚ × ℚ)).length :=
  ⟨by decide,
   (c1_row_count ⟨1, 1, 1, 1, 1⟩ (fun _ => 0) 1 [((0 : ℚ), (1 : ℚ))] 0
      (fun _ => 0) freshState (by decide)).2.2.1⟩

/-- C2: for every N ≥ 2 and each i < N-1, the position-continuity row (at
construction index 2(N-1)+i) encodes
d(i+1) - d(i) - delta_s dp(i) - (delta_s^2/3) dpp(i) - (delta_s^2/6) dpp(i+1)
= 0: coefficient +1 at column i+1, -1 at column i, -delta_s at
first-derivative column N+i, -delta_s^2/3 and -delta_s^2/6 at
second-derivative columns 2N+i and 2N+i+1, every other coefficient 0, and
lower and upper bound both 0. -/
theorem c2_position_row (cfg : Config) (dState : Fin 3 → ℚ) (ds : ℚ)
    (dBounds : List (ℚ × ℚ)) (i : ℕ)
    (hN : 2 ≤ dBounds.length) (hi : i < dBounds.length - 1) :
    ((constraintRows cfg dState ds dBounds).getD
        (2 * (dBounds.length - 1) + i) rowDefault).coeff (i + 1) = 1 ∧
    ((constraintRows cfg dState ds dBounds).getD
        (2 * (dBounds.length - 1) + i) rowDefault).coeff i = -1 ∧
    ((constraintRows cfg dState ds dBounds).getD
        (2 * (dBounds.length - 1) + i) rowDefault).coeff
        (dBounds.length + i) = -ds ∧
    ((constraintRows cfg dState ds dBounds).getD
        (2 * (dBounds.length - 1) + i) rowDefault).coeff
        (2 * dBounds.length + i) = -(ds ^ 2) / 3 ∧
    ((constraintRows cfg dState ds dBounds).getD
        (2 * (dBounds.length - 1) + i) rowDefault).coeff
        (2 * dBounds.length + i + 1) = -(ds ^ 2) / 6 ∧
    (∀ c : ℕ, c ≠ i → c ≠ i + 1 → c ≠ dBounds.length + i →
      c ≠ 2 * dBounds.length + i → c ≠ 2 * dBounds.length + i + 1 →
      ((constraintRows cfg dState ds dBounds).getD
        (2 * (dBounds.length - 1) + i) rowDefault).coeff c = 0) ∧
    ((constraintRows cfg dState ds dBounds).getD
        (2 * (dBounds.length - 1) + i) rowDefault).lb = 0 ∧
    ((constraintRows cfg dState ds dBounds).getD
        (2 * (dBounds.length - 1) + i) rowDefault).ub = 0 := by
  rw [constraintRows_getD_pos cfg dState ds dBounds i hi]
  refine ⟨?_, ?_, ?_, ?_, ?_, ?_, rfl, rfl⟩
  · simp only [posRow]
    split_ifs <;> first | rfl | ring1 | (exfalso; omega)
  · simp only [posRow]
    split_ifs <;> first | rfl | ring1 | (exfalso; omega)
  · simp only [posRow]
    split_ifs <;> first | rfl | ring1 | (exfalso; omega)
  · simp only [posRow]
    split_ifs <;> first | rfl | ring1 | (exfalso; omega)
  · simp only [posRow]
    split_ifs <;> first | rfl | ring1 | (exfalso; omega)
  · intro c h1 h2 h3 h4 h5
    simp only [posRow]
    split_ifs <;> first | rfl | (exfalso; omega)

theorem c2_position_row_witness :
    ((constraintRows sampleConfig (fun _ => 0) 2
        [((-1 : ℚ), (1 : ℚ)), ((-1 : ℚ), (1 : ℚ))]).getD 2 rowDefault).coeff 1
      = 1 :=
  (c2_position_row sampleConfig (fun _ => 0) 2
    [((-1 : ℚ), (1 : ℚ)), ((-1 : ℚ), (1 : ℚ))] 0
    (by decide) (by decide)).1

/-- C5: for every N ≥ 2 and each i < N-1, the jerk-bound row (at
construction index i) has coefficient -1 at second-derivative column 2N+i
and +1 at column 2N+i+1, every other coefficient 0, with lower bound
-J_max * delta_s and upper bound J_max * delta_s, J_max being
FLAGS_lateral_third_order_derivative_max. -/
theorem c5_jerk_row (cfg : Config) (dState : Fin 3 → ℚ) (ds : ℚ)
    (dBounds : List (ℚ × ℚ)) (i : ℕ)
    (hN : 2 ≤ dBounds.length) (hi : i < dBounds.length - 1) :
    ((constraintRows cfg dState ds dBounds).getD i rowDefault).coeff
        (2 * dBounds.length + i) = -1 ∧
    ((constraintRows cfg dState ds dBounds).getD i rowDefault).coeff
        (2 * dBounds.length + i + 1) = 1 ∧
    (∀ c : ℕ, c ≠ 2 * dBounds.length + i → c ≠ 2 * dBounds.length + i + 1 →
      ((constraintRows cfg dState ds dBounds).getD i rowDefault).coeff c = 0) ∧
    ((constraintRows cfg dState ds dBounds).getD i rowDefault).lb =
      -(cfg.lateral_third_order_derivative_max * ds) ∧
    ((constraintRows cfg dState ds dBounds).getD i rowDefault).ub =
      cfg.lateral_third_order_derivative_max * ds := by
  rw [constraintRows_getD_jerk cfg dState ds dBounds i hi]
  refine ⟨?_, ?_, ?_, neg_mul _ _, rfl⟩
  · simp only [jerkRow]
    split_ifs <;> first | rfl | (exfalso; omega)
  · simp only [jerkRow]
    split_ifs <;> first | rfl | (exfalso; omega)
  · intro c h1 h2
    simp only [jerkRow]
    split_ifs <;> first | rfl | (exfalso; omega)

theorem c5_jerk_row_witness :
    ((constraintRows sampleConfig (fun _ => 0) 2
        [((-1 : ℚ), (1 : ℚ)), ((-1 : ℚ), (1 : ℚ))]).getD 0 rowDefault).coeff 4
      = -1 :=
  (c5_jerk_row sampleConfig (fun _ => 0) 2
    [((-1 : ℚ), (1 : ℚ)), ((-1 : ℚ), (1 : ℚ))] 0
    (by decide) (by decide)).1

/-- C6: for every station-bound sequence of length N ≥ 1 and each i < 3N,
the row at position (length - 3N + i), i.e. in the final block of 3N box
rows, has its single nonzero coefficient 1 at column i; its bounds are
StationBound[i] for i < N and (-2, 2) for N ≤ i < 3N. -/
theorem c6_box_rows (cfg : Config) (dState : Fin 3 → ℚ) (ds : ℚ)
    (dBounds : List (ℚ × ℚ)) (i : ℕ)
    (hN : 1 ≤ dBounds.length) (hi : i < 3 * dBounds.length) :
    ((constraintRows cfg dState ds dBounds).getD
        ((constraintRows cfg dState ds dBounds).length
          - 3 * dBounds.length + i) rowDefault).coeff i = 1 ∧
    (∀ c : ℕ, c ≠ i →
      ((constraintRows cfg dState ds dBounds).getD
        ((constraintRows cfg dState ds dBounds).length
          - 3 * dBounds.length + i) rowDefault).coeff c = 0) ∧
    (i < dBounds.length →
      ((constraintRows cfg dState ds dBounds).getD
        ((constraintRows cfg dState ds dBounds).length
          - 3 * dBounds.length + i) rowDefault).lb =
        (dBounds.getD i (0, 0)).1 ∧
      ((constraintRows cfg dState ds dBounds).getD
        ((constraintRows cfg dState ds dBounds).length
          - 3 * dBounds.length + i) rowDefault).ub =
        (dBounds.getD i (0, 0)).2) ∧
    (dBounds.length ≤ i →
      ((constraintRows cfg dState ds dBounds).getD
        ((constraintRows cfg dState ds dBounds).length
          - 3 * dBounds.length + i) rowDefault).lb = -2 ∧
      ((constraintRows cfg dState ds dBounds).getD
        ((constraintRows cfg dState ds dBounds).length
          - 3 * dBounds.length + i) rowDefault).ub = 2) := by
  rw [constraintRows_length cfg dState ds dBounds]
  rw [show 3 * (dBounds.length - 1) + 3 + 3 * dBounds.length
        - 3 * dBounds.length + i = 3 * (dBounds.length - 1) + 3 + i from
      by omega]
  rw [constraintRows_getD_box cfg dState ds dBounds i hi]
  refine ⟨?_, ?_, ?_, ?_⟩
  · simp [boxRow]
  · intro c h1
    simp [boxRow, h1]
  · intro hlt
    simp [boxRow, hlt]
  · intro hge
    simp [boxRow, Nat.not_lt.mpr hge]

theorem c6_box_rows_witness :
    ((constraintRows sampleConfig (fun _ => 0) 2
        [((-1 : ℚ), (1 : ℚ))]).getD 3 rowDefault).coeff 0 = 1 :=
  (c6_box_rows sampleConfig (fun _ => 0) 2 [((-1 : ℚ), (1 : ℚ))] 0
    (by decide) (by decide)).1

theorem foldl_setEntry_diag (cfg : Config) (N : ℕ) (n : ℕ) :
    ((List.range n).foldl (fun M i => setEntry M i i (kernelDiagVal cfg N i))
        (fun _ _ => 0)) =
      fun r c => if r = c ∧ r < n then kernelDiagVal cfg N r else 0 := by
  induction n with
  | zero => funext r c; simp
  | succ n ih =>
    rw [List.range_succ, List.foldl_append, ih]
    funext r c
    simp only [List.foldl_cons, List.foldl_nil, setEntry]
    by_cases h1 : r = n ∧ c = n
    · rw [if_pos h1]
      obtain ⟨hr, hc⟩ := h1
      subst hr; subst hc
      rw [if_pos ⟨rfl, Nat.lt_succ_self _⟩]
    · rw [if_neg h1]
      by_cases h2 : r = c ∧ r < n
      · rw [if_pos h2, if_pos ⟨h2.1, Nat.lt_succ_of_lt h2.2⟩]
      · have h3 : ¬(r = c ∧ r < n + 1) := by
          rintro ⟨rfl, hlt⟩
          rcases Nat.lt_succ_iff_lt_or_eq.mp hlt with hx | hx
          · exact h2 ⟨rfl, hx⟩
          · exact h1 ⟨hx, hx⟩
        rw [if_neg h2, if_neg h3]

theorem getLast?_set_last {α : Type} (l : List α) (a : α) (h : 1 ≤ l.length) :
    (l.set (l.length - 1) a).getLast? = some a := by
  rw [List.getLast?_eq_getElem?, List.length_set]
  exact List.getElem?_set_self (by omega)

/-- C3: CalculateKernel builds a 3N x 3N matrix whose diagonal entry at
index i is 2 (w_offset + w_obstacle_distance) for i < N,
2 w_derivative for N ≤ i < 2N, and 2 w_second_derivative for
2N ≤ i < 3N, and whose off-diagonal entries are all 0 (every entry with
r ≠ c falls into the final 0 case). -/
theorem c3_kernel (cfg : Config) (N r c : ℕ) :
    CalculateKernel cfg N r c =
      if r = c ∧ r < N then
        2 * (cfg.weight_lateral_offset + cfg.weight_lateral_obstacle_distance)
      else if r = c ∧ r < 2 * N then
        2 * cfg.weight_lateral_derivative
      else if r = c ∧ r < 3 * N then
        2 * cfg.weight_lateral_second_order_derivative
      else 0 := by
  unfold CalculateKernel
  rw [foldl_setEntry_diag cfg N (3 * N)]
  simp only [kernelDiagVal]
  split_ifs <;> first | rfl | ring1 | (exfalso; omega)

/-- C4: the linear term q has length 3N, q_i = -2 w_obstacle_distance
(lower_i + upper_i) for i < N, and q_i = 0 for N ≤ i < 3N. -/
theorem c4_q_vector (cfg : Config) (dBounds : List (ℚ × ℚ)) :
    (qVector cfg dBounds).length = 3 * dBounds.length ∧
    (∀ i : ℕ, i < dBounds.length →
      (qVector cfg dBounds).getD i 0 =
        -2 * cfg.weight_lateral_obstacle_distance *
          ((dBounds.getD i (0, 0)).1 + (dBounds.getD i (0, 0)).2)) ∧
    (∀ i : ℕ, dBounds.length ≤ i → i < 3 * dBounds.length →
      (qVector cfg dBounds).getD i 0 = 0) := by
  refine ⟨by simp [qVector], ?_, ?_⟩
  · intro i hi
    unfold qVector
    rw [getD_range_map _ _ _ _ (by omega), if_pos hi]
  · intro i h1 h2
    unfold qVector
    rw [getD_range_map _ _ _ _ h2, if_neg (by omega)]

theorem c4_q_vector_witness :
    (qVector sampleConfig [((1 : ℚ), (3 : ℚ))]).getD 0 0 =
      -2 * sampleConfig.weight_lateral_obstacle_distance * (1 + 3) :=
  (c4_q_vector sampleConfig [((1 : ℚ), (3 : ℚ))]).2.1 0 (by decide)

/-- C7: for every input with N ≥ 1 and every primal vector returned by the
solver, a call on a fresh optimizer instance ends with the last entries of
the first-derivative and second-derivative output sequences both exactly
0; the override at index num_var - 1 lands on the final appended entries
because the sequences start empty. -/
theorem c7_terminal_override (cfg : Config) (dState : Fin 3 → ℚ) (ds : ℚ)
    (dBounds : List (ℚ × ℚ)) (status : ℤ) (x : ℕ → ℚ) (b : Bool)
    (st' : OptState) (hN : 1 ≤ dBounds.length)
    (h : optimize cfg dState ds dBounds status x freshState = some (b, st')) :
    st'.opt_d_prime.getLast? = some 0 ∧ st'.opt_d_pprime.getLast? = some 0 := by
  unfold optimize at h
  rw [if_pos (constraintRows_length_int cfg dState ds dBounds hN)] at h
  obtain ⟨hb, hst⟩ := Prod.mk.injEq .. ▸ Option.some.injEq .. ▸ h
  subst hst
  constructor
  · show ((freshState.opt_d_prime ++ _).set (dBounds.length - 1) 0).getLast? = _
    have hlen : dBounds.length - 1 =
        (freshState.opt_d_prime ++
          (List.range dBounds.length).map
            (fun i => x (i + dBounds.length))).length - 1 := by
      simp [freshState]
    rw [hlen, getLast?_set_last _ _ (by simp [freshState]; omega)]
  · show ((freshState.opt_d_pprime ++ _).set (dBounds.length - 1) 0).getLast? = _
    have hlen : dBounds.length - 1 =
        (freshState.opt_d_pprime ++
          (List.range dBounds.length).map
            (fun i => x (i + 2 * dBounds.length))).length - 1 := by
      simp [freshState]
    rw [hlen, getLast?_set_last _ _ (by simp [freshState]; omega)]

theorem c7_terminal_override_witness :
    (extractResults freshState 1 (fun _ => 1)).opt_d_prime.getLast? =
      some 0 ∧
    (extractResults freshState 1 (fun _ => 1)).opt_d_pprime.getLast? =
      some 0 :=
  c7_terminal_override sampleConfig (fun _ => 0) 1 [((-1 : ℚ), (1 : ℚ))] 0
    (fun _ => 1) true (extractResults freshState 1 (fun _ => 1))
    (by decide) rfl

/-- C8: for every input with at least one station and every solver outcome,
optimize returns true, and the whole result is a constant function of the
solver status, which the source never inspects. -/
theorem c8_ignores_solver_status (cfg : Config) (dState : Fin 3 → ℚ)
    (ds : ℚ) (dBounds : List (ℚ × ℚ)) (status : ℤ) (x : ℕ → ℚ)
    (st : OptState) (hN : 1 ≤ dBounds.length) :
    optimize cfg dState ds dBounds status x st =
      some (true, extractResults st dBounds.length x) ∧
    (∀ status2 : ℤ, optimize cfg dState ds dBounds status x st =
      optimize cfg dState ds dBounds status2 x st) := by
  constructor
  · unfold optimize
    rw [if_pos (constraintRows_length_int cfg dState ds dBounds hN)]
  · intro status2
    rfl

theorem c8_ignores_solver_status_witness :
    optimize sampleConfig (fun _ => 0) 1 [((-1 : ℚ), (1 : ℚ))] 5
      (fun _ => 2) freshState =
      some (true, extractResults freshState 1 (fun _ => 2)) :=
  (c8_ignores_solver_status sampleConfig (fun _ => 0) 1 [((-1 : ℚ), (1 : ℚ))]
    5 (fun _ => 2) freshState (by decide)).1

/-- C9: every successful call appends exactly N entries to each of the
three output sequences without resetting them, so on a fresh instance the
three output sequences have length exactly N after the call. -/
theorem c9_output_lengths (cfg : Config) (dState : Fin 3 → ℚ) (ds : ℚ)
    (dBounds : List (ℚ × ℚ)) (status : ℤ) (x : ℕ → ℚ) (st : OptState)
    (b : Bool) (st' : OptState) (hN : 1 ≤ dBounds.length)
    (h : optimize cfg dState ds dBounds status x st = some (b, st')) :
    st'.opt_d.length = st.opt_d.length + dBounds.length ∧
    st'.opt_d_prime.length = st.opt_d_prime.length + dBounds.length ∧
    st'.opt_d_pprime.length = st.opt_d_pprime.length + dBounds.length ∧
    (st = freshState →
      st'.opt_d.length = dBounds.length ∧
      st'.opt_d_prime.length = dBounds.length ∧
      st'.opt_d_pprime.length = dBounds.length) := by
  unfold optimize at h
  rw [if_pos (constraintRows_length_int cfg dState ds dBounds hN)] at h
  obtain ⟨hb, hst⟩ := Prod.mk.injEq .. ▸ Option.some.injEq .. ▸ h
  subst hst
  refine ⟨by simp [extractResults], by simp [extractResults],
    by simp [extractResults], ?_⟩
  rintro rfl
  refine ⟨by simp [extractResults, freshState], by simp [extractResults, freshState],
    by simp [extractResults, freshState]⟩

theorem c9_output_lengths_witness :
    (extractResults freshState 1 (fun _ => 1)).opt_d.length =
      freshState.opt_d.length + 1 :=
  (c9_output_lengths sampleConfig (fun _ => 0) 1 [((-1 : ℚ), (1 : ℚ))] 0
    (fun _ => 1) freshState true (extractResults freshState 1 (fun _ => 1))
    (by decide) rfl).1

/-- C10: for the empty station-bound sequence, kNumConstraint evaluates to
0 while construction still emits the three initial-state pin rows at
indices 0, 1, 2, all of which lie outside a 0-row matrix (the matrix row
count kNumConstraint is at most each of these indices); the running row
counter finishes at 3 instead of kNumConstraint = 0, so the fatal
CHECK_EQ fires and optimize aborts. -/
theorem c10_empty_bounds (cfg : Config) (dState : Fin 3 → ℚ) (ds : ℚ)
    (status : ℤ) (x : ℕ → ℚ) (st : OptState) :
    kNumConstraint 0 = 0 ∧
    constraintRows cfg dState ds [] =
      [pinRowOffset dState, pinRowPrime 0 dState, pinRowPprime 0 dState] ∧
    ((constraintRows cfg dState ds []).length : ℤ) = 3 ∧
    kNumConstraint 0 ≤ 0 ∧ kNumConstraint 0 ≤ 1 ∧ kNumConstraint 0 ≤ 2 ∧
    optimize cfg dState ds [] status x st = none := by
  refine ⟨by decide, ?_, ?_, by decide, by decide, by decide, ?_⟩
  · simp [constraintRows]
  · rw [constraintRows_length]
    decide
  · unfold optimize
    rw [if_neg (by rw [constraintRows_length]; decide)]

end Apollo
